import Mathlib

/-!
Shallow embedding of the model-selection / forecast-generation core of the
repository (files `app/cross_validator.py`, `app/forecaster.py`,
`app/data_types.py`, `app/constants.py`).

Conventions of the embedding:
* timestamps are `Int` ticks (seconds); a pandas frequency unit maps to a
  tick length via `freqTicks`;
* numeric data is `ℚ` (exact rationals stand in for floats wherever the code
  only adds, subtracts, multiplies, divides and compares); the square root in
  RMSE lands in `ℝ`;
* a pandas `DataFrame` is a `List` of row structures whose fields are the
  frame's columns;
* Python exceptions become `Except` error values;
* the external `statsforecast` engine (`StatsForecast.cross_validation`,
  `StatsForecast.forecast`) and the resolved metric callable are opaque
  function parameters, exactly as the code treats them as black boxes.
-/

namespace App

/-- Machine epsilon of float64, the denominator guard used by sklearn's
`mean_absolute_percentage_error`. -/
def machineEps : ℚ := 1 / 2 ^ 52

/-- Arithmetic mean of a list of rationals (0 on the empty list, which the
metric functions never receive per their non-empty input contract). -/
def meanQ (l : List ℚ) : ℚ := l.sum / l.length

/-- `sklearn.metrics.mean_absolute_error` over exact rationals. -/
def maeQ (actual predicted : List ℚ) : ℚ :=
  meanQ ((actual.zip predicted).map fun p => |p.1 - p.2|)

/-- `sklearn.metrics.mean_absolute_percentage_error` over exact rationals:
mean of `|a - p| / max |a| eps`. -/
def mapeQ (actual predicted : List ℚ) : ℚ :=
  meanQ ((actual.zip predicted).map fun p => |p.1 - p.2| / max |p.1| machineEps)

/-- Mean squared error over exact rationals (the radicand of
`sklearn.metrics.root_mean_squared_error`). -/
def mseQ (actual predicted : List ℚ) : ℚ :=
  meanQ ((actual.zip predicted).map fun p => (p.1 - p.2) ^ 2)

/-- `sklearn.metrics.mean_absolute_error` viewed with a float (real) result
type, as an entry of `METRIC_BANK`. -/
noncomputable def maeR (actual predicted : List ℚ) : ℝ := (maeQ actual predicted : ℝ)

/-- `sklearn.metrics.mean_absolute_percentage_error` viewed with a float
(real) result type, as an entry of `METRIC_BANK`. -/
noncomputable def mapeR (actual predicted : List ℚ) : ℝ := (mapeQ actual predicted : ℝ)

/-- `sklearn.metrics.root_mean_squared_error`: square root of the mean
squared error. -/
noncomputable def rmseR (actual predicted : List ℚ) : ℝ :=
  Real.sqrt (mseQ actual predicted : ℝ)

/-- `METRIC_BANK` of `app/data_types.py`: the metric registry, keyed by the
constants `MAPE`, `MAE`, `RMSE` in the dict's insertion order. -/
noncomputable def METRIC_BANK : List (String × (List ℚ → List ℚ → ℝ)) :=
  [("MAPE", mapeR), ("MAE", maeR), ("RMSE", rmseR)]

/-- Static configuration of a `statsforecast` model as constructed by the
entries of `ModelBank.models` (`AutoARIMA(season_length=365)`,
`AutoETS(season_length=365)`, `HistoricAverage()`). -/
structure ModelProto where
  kind : String
  season_length : Option Nat
deriving DecidableEq, Repr

/-- Error raised by `ModelBank.get` for an unregistered name
(a `ValueError` in the code, `UnknownModelError` in the design's taxonomy). -/
inductive ModelError where
  | unknownModel
deriving DecidableEq, Repr

namespace ModelBank

/-- `ModelBank.models` of `app/data_types.py`: the fixed registry dict, in
its insertion (enumeration) order. -/
def models : List (String × ModelProto) :=
  [("AutoARIMA", ⟨"AutoARIMA", some 365⟩),
   ("AutoETS", ⟨"AutoETS", some 365⟩),
   ("HistoricAverage", ⟨"HistoricAverage", none⟩)]

/-- `ModelBank.get`: raises for a name outside the registry, otherwise hands
out the (configuration of the) registered model.  The `copy.deepcopy` the
code performs on the stored instance is modelled separately at the heap
level by `getRef` below. -/
def get (model_name : String) : Except ModelError ModelProto :=
  match models.lookup model_name with
  | none => .error .unknownModel
  | some m => .ok m

end ModelBank

/-- Runtime state of a model object: its static configuration plus the
mutable state a `fit` call installs. -/
structure ModelState where
  proto : ModelProto
  fit_state : Option (List ℚ)
deriving DecidableEq, Repr

/-- A tiny object heap: cells indexed by allocation order.  Used to give
meaning to `copy.deepcopy` and to aliasing/mutation claims. -/
structure Heap where
  cells : List ModelState
deriving DecidableEq, Repr

namespace Heap

/-- Dereference an address. -/
def read (h : Heap) (a : Nat) : Option ModelState := h.cells[a]?

/-- Overwrite the cell at an address (mutation of the object's state). -/
def write (h : Heap) (a : Nat) (v : ModelState) : Heap := ⟨h.cells.set a v⟩

/-- Allocate a fresh cell holding `v`; returns the new heap and the fresh
address. -/
def alloc (h : Heap) (v : ModelState) : Heap × Nat :=
  (⟨h.cells ++ [v]⟩, h.cells.length)

end Heap

/-- Address of the registry's stored prototype instance for a model name:
the prototypes are allocated first, in the registry's enumeration order. -/
def protoAddr (model_name : String) : Option Nat :=
  (ModelBank.models.map Prod.fst).findIdx? (· == model_name)

/-- The heap right after the `ModelBank.models` class attribute is built:
one unfitted prototype instance per registry entry. -/
def initHeap : Heap :=
  ⟨ModelBank.models.map fun p => ⟨p.2, none⟩⟩

/-- Heap-level `ModelBank.get`: `copy.deepcopy(self.models.get(model_name))`
— read the prototype object and allocate an independent copy of its entire
state, returning a reference to the copy. -/
def ModelBank.getRef (h : Heap) (model_name : String) :
    Except ModelError (Heap × Nat) :=
  match protoAddr model_name with
  | none => .error .unknownModel
  | some a =>
    match h.read a with
    | none => .error .unknownModel
    | some s => .ok (h.alloc s)

/-- One observation row of the input time-series frame
(`unique_id`, `ds`, `y`). -/
structure HistRow where
  unique_id : Nat
  ds : Int
  y : ℚ
deriving DecidableEq, Repr

/-- One row of the frame returned by `StatsForecast.cross_validation`:
the keys `unique_id`, `ds`, `cutoff`, the ground truth column `y`, and one
prediction column per candidate model (an association list keyed by model
name). -/
structure CvRow where
  unique_id : Nat
  ds : Int
  cutoff : Int
  y : ℚ
  preds : List (String × ℚ)
deriving DecidableEq, Repr

/-- Value of a model's prediction column in a `cv_df` row (the frames the
code feeds to `_determine_best_model` always carry a column per candidate
model; a lookup miss yields a junk 0 in the embedding). -/
def CvRow.predOf (r : CvRow) (model : String) : ℚ :=
  (r.preds.lookup model).getD 0

/-- One row of the decision table `transform` returns
(`unique_id`, `start_date`, `best_model` — its only columns). -/
structure DecisionRow where
  unique_id : Nat
  start_date : Int
  best_model : String
deriving DecidableEq, Repr

/-- One row of the diagnostic `_error_df`: group keys, the
`{metric}_{model}` error columns, and the derived `best_model` column. -/
structure ErrorRow where
  unique_id : Nat
  cutoff : Int
  errs : List (String × ℚ)
  best_model : String
deriving DecidableEq, Repr

/-- Errors surfacing from the fit/transform/predict paths: the two
precondition violations (`RuntimeError`s in the code; `NotFittedError` /
`NotTransformedError` in the design's taxonomy) and the `ValueError`
(`No objects to concatenate`) that `pd.concat([])` raises inside `predict`
when no decision row is retained. -/
inductive StateError where
  | notFitted
  | notTransformed
  | emptyConcat
deriving DecidableEq, Repr

/-- Ticks per pandas offset unit, for the units `pd.Timedelta` accepts;
`none` for units (like months) `Timedelta` rejects. -/
def freqTicks : String → Option Int
  | "W" => some 604800
  | "D" => some 86400
  | "h" => some 3600
  | "H" => some 3600
  | "min" => some 60
  | "T" => some 60
  | "m" => some 60
  | "s" => some 1
  | _ => none

/-- `pd.to_datetime(cutoff) + pd.Timedelta(h, unit=freq)`: advance a cutoff
by `h` periods of the configured frequency. -/
def addTimedelta (cutoff : Int) (h : Nat) (freq : String) : Int :=
  cutoff + (h : Int) * (freqTicks freq).getD 0

/-- The `(unique_id, cutoff)` group keys of a `cv_df`
(`cv_df.groupby([UNIQUE_ID, CUTOFF])` — each key once; the embedding keeps
keys by occurrence while pandas emits them sorted, an ordering no claim
depends on). -/
def groupKeys (cv : List CvRow) : List (Nat × Int) :=
  (cv.map fun r => (r.unique_id, r.cutoff)).dedup

/-- The rows of one `(unique_id, cutoff)` group. -/
def groupRows (cv : List CvRow) (k : Nat × Int) : List CvRow :=
  cv.filter fun r => decide ((r.unique_id, r.cutoff) = k)

/-- `_calculate_metrics` applied to one group and one model:
`metric_callabe(group[Y], group[model])`. -/
def errOf (metricFn : List ℚ → List ℚ → ℚ) (g : List CvRow) (model : String) : ℚ :=
  metricFn (g.map (·.y)) (g.map (·.predOf model))

/-- The `{metric}_{model}` columns `_calculate_metrics` produces for one
group, in the candidate list's order. -/
def metricColumns (metric : String) (metricFn : List ℚ → List ℚ → ℚ)
    (models : List String) (g : List CvRow) : List (String × ℚ) :=
  models.map fun m => (metric ++ "_" ++ m, errOf metricFn g m)

/-- First element of the list attaining the minimal `f`-value
(`DataFrame.idxmin(axis=1)` over columns listed in this order: the earliest
column wins a tie). -/
def argminFirst (f : String → ℚ) : List String → Option String
  | [] => none
  | m :: ms =>
    match argminFirst f ms with
    | none => some m
    | some b => if f b < f m then some b else some m

/-- The `best_model` entry of one group:
`filter(like=metric).idxmin(axis=1).str.replace(f"{metric}_", "")` — the
metric columns stand in candidate-list order, `idxmin` returns the first
column attaining the row minimum, and stripping the `{metric}_` prefix
recovers the model name. -/
def bestModelOf (metricFn : List ℚ → List ℚ → ℚ) (models : List String)
    (g : List CvRow) : String :=
  (argminFirst (errOf metricFn g) models).getD ""

/-- The selection rule exactly as claim C1 words it (spec refinement
definition, for comparison with the code's `bestModelOf`): among the
candidate models attaining the minimal error over the group, the one
earliest in the registry's enumeration order — the first-registered
wins. -/
def bestModelRegistryTieBreak (metricFn : List ℚ → List ℚ → ℚ)
    (models : List String) (g : List CvRow) : Option String :=
  ((ModelBank.models.map Prod.fst).filter fun m =>
    decide (m ∈ models) &&
      decide (∀ m2 ∈ models, errOf metricFn g m ≤ errOf metricFn g m2)).head?

/-- The grouped/aggregated frame `cv_df_results` with its `best_model`
column, i.e. the value stored in `self._error_df`. -/
def cvDfResults (metric : String) (metricFn : List ℚ → List ℚ → ℚ)
    (models : List String) (cv : List CvRow) : List ErrorRow :=
  (groupKeys cv).map fun k =>
    ⟨k.1, k.2, metricColumns metric metricFn models (groupRows cv k),
      bestModelOf metricFn models (groupRows cv k)⟩

/-- `CrossValidator._determine_best_model`: returns the diagnostic error
frame (kept in `_error_df`) and the decision table, whose `start_date`
column is the cutoff advanced by `forecast_horizon` frequency units and
whose only columns are `unique_id`, `start_date`, `best_model`. -/
def determineBestModel (metric : String) (metricFn : List ℚ → List ℚ → ℚ)
    (models : List String) (freq : String) (forecast_horizon : Nat)
    (cv : List CvRow) : List ErrorRow × List DecisionRow :=
  (cvDfResults metric metricFn models cv,
   (cvDfResults metric metricFn models cv).map fun r =>
     ⟨r.unique_id, addTimedelta r.cutoff forecast_horizon freq, r.best_model⟩)

/-- The `CrossValidator` object's stored state (`self.sf` and
`self.metric_callable` are the external engine and the resolved metric
callable; both enter the embedding as function parameters where used). -/
structure CrossValidator where
  models : List String
  freq : String
  forecast_horizon : Nat
  season_length : Nat
  cv_folds : Nat
  metric : String
  is_fitted : Bool
  error_df : Option (List ErrorRow)
deriving DecidableEq, Repr

namespace CrossValidator

/-- `CrossValidator.__init__`: configuration only; not fitted, no error
frame yet. -/
def init (models : List String) (freq : String) (forecast_horizon : Nat)
    (season_length : Nat) (cv_folds : Nat) (metric : String) : CrossValidator :=
  ⟨models, freq, forecast_horizon, season_length, cv_folds, metric, false, none⟩

/-- `CrossValidator.fit`: resolves every candidate name through the model
registry (a miss raises) and marks the validator fitted; no data-dependent
work. -/
def fit (cv : CrossValidator) : Except ModelError CrossValidator :=
  if cv.models.all fun m => (ModelBank.models.lookup m).isSome then
    .ok { cv with is_fitted := true }
  else .error .unknownModel

/-- `CrossValidator.transform`: refuses when not fitted; otherwise runs the
external engine's rolling cross-validation (`engine`, standing for
`self.sf.cross_validation`) and reduces its output with
`_determine_best_model`, recording the diagnostic frame. -/
def transform (engine : List HistRow → List CvRow)
    (metricFn : List ℚ → List ℚ → ℚ) (cv : CrossValidator)
    (X : List HistRow) : Except StateError (CrossValidator × List DecisionRow) :=
  if cv.is_fitted then
    let p := determineBestModel cv.metric metricFn cv.models cv.freq
      cv.forecast_horizon (engine X)
    .ok ({ cv with error_df := some p.1 }, p.2)
  else .error .notFitted

/-- The `error_df` property: refuses until `transform` has stored a frame. -/
def errorDf (cv : CrossValidator) : Except StateError (List ErrorRow) :=
  match cv.error_df with
  | none => .error .notTransformed
  | some df => .ok df

end CrossValidator

/-- One row of the forecast output after `_generate_forecast` renames the
columns: `unique_id`, `ds`, `prediction`, `prediction-lo-{level}`,
`prediction-hi-{level}`. -/
structure ForecastRow where
  unique_id : Nat
  ds : Int
  prediction : ℚ
  lo : ℚ
  hi : ℚ
deriving DecidableEq, Repr

/-- Configuration error of `Forecaster.__init__` (a `NotImplementedError`
in the code; `UnsupportedConfigurationError` in the design's taxonomy). -/
inductive ConfigError where
  | unsupportedConfiguration
deriving DecidableEq, Repr

/-- `Series.max()` over a list of timestamps: `none` on the empty series
(pandas `NaT`, which compares false against everything). -/
def tsMax? : List Int → Option Int
  | [] => none
  | t :: ts => some (ts.foldl max t)

/-- The `Forecaster` object's stored state. -/
structure Forecaster where
  cv_results : List DecisionRow
  freq : String
  forecast_horizon : Nat
  level : List Nat
  is_fitted : Bool
deriving DecidableEq, Repr

namespace Forecaster

/-- `Forecaster.__init__`: rejects more than one and zero confidence
levels, otherwise stores the decision table unfitted. -/
def init? (cv_results : List DecisionRow) (freq : String)
    (forecast_horizon : Nat) (level : List Nat) : Except ConfigError Forecaster :=
  if level.length > 1 then .error .unsupportedConfiguration
  else if level.length = 0 then .error .unsupportedConfiguration
  else .ok ⟨cv_results, freq, forecast_horizon, level, false⟩

/-- The first query of `Forecaster.fit`: the decision rows whose
`start_date` is at most the history's maximum timestamp. -/
def fitFilter (rows : List DecisionRow) (m : Int) : List DecisionRow :=
  rows.filter fun r => decide (r.start_date ≤ m)

/-- `Forecaster.fit`: keeps the decisions whose `start_date` is at most the
history's maximum timestamp, then of those only the rows sharing the latest
remaining `start_date`.  When a maximum does not exist (empty series /
empty filtered frame, pandas `NaT`), every comparison is false and the kept
frame is empty. -/
def fit (f : Forecaster) (X : List HistRow) : Forecaster :=
  match tsMax? (X.map (·.ds)) with
  | none => { f with cv_results := [], is_fitted := true }
  | some m =>
    match tsMax? ((fitFilter f.cv_results m).map (·.start_date)) with
    | none => { f with cv_results := [], is_fitted := true }
    | some latest =>
      { f with
        cv_results := (fitFilter f.cv_results m).filter
          fun r => decide (r.start_date = latest),
        is_fitted := true }

/-- The subset of the history belonging to one entity
(`X[X[UNIQUE_ID] == unique_id]`). -/
def entityRows (X : List HistRow) (uid : Nat) : List HistRow :=
  X.filter fun x => decide (x.unique_id = uid)

/-- `Forecaster.predict`: refuses when not fitted; otherwise, per retained
decision row, takes the entity's slice of the history, contributes nothing
when the slice is empty and otherwise the external engine's forecast for
the decision's best model (`gen` stands for `_generate_forecast`, i.e.
`StatsForecast.forecast` plus column renaming); the results are
concatenated with `pd.concat(results)`, which raises a `ValueError` when
`results` is the empty list — i.e. exactly when no decision row is
retained. -/
def predict (gen : List HistRow → String → List ForecastRow)
    (f : Forecaster) (X : List HistRow) : Except StateError (List ForecastRow) :=
  if f.is_fitted then
    if f.cv_results.isEmpty then .error .emptyConcat
    else
      .ok ((f.cv_results.map fun r =>
        if (entityRows X r.unique_id).isEmpty then []
        else gen (entityRows X r.unique_id) r.best_model).flatten)
  else .error .notFitted

end Forecaster

/-- An operation on a `Forecaster` object after construction: `fit`
mutates the stored decision table, `predict` reads it (the code's `predict`
assigns nothing to `self`). -/
inductive ForecasterOp where
  | fitOp (X : List HistRow)
  | predictOp (X : List HistRow)

/-- State transition of one operation on the `Forecaster` object. -/
def applyOp (f : Forecaster) : ForecasterOp → Forecaster
  | .fitOp X => f.fit X
  | .predictOp _ => f

/-! ### Auxiliary lemmas about folds, maxima, argmin and lookups -/

theorem le_foldl_max : ∀ (l : List Int) (b : Int), b ≤ l.foldl max b
  | [], _ => le_refl _
  | t :: ts, b => le_trans (le_max_left b t) (le_foldl_max ts (max b t))

theorem mem_le_foldl_max :
    ∀ {l : List Int} {t : Int}, t ∈ l → ∀ b : Int, t ≤ l.foldl max b := by
  intro l
  induction l with
  | nil => intro t ht; cases ht
  | cons x xs ih =>
    intro t ht b
    rcases List.mem_cons.mp ht with rfl | h
    · exact le_trans (le_max_right b t) (le_foldl_max xs _)
    · exact ih h _

theorem foldl_max_mem : ∀ (l : List Int) (b : Int),
    l.foldl max b = b ∨ l.foldl max b ∈ l
  | [], _ => Or.inl rfl
  | x :: xs, b => by
    rcases foldl_max_mem xs (max b x) with h | h
    · show xs.foldl max (max b x) = b ∨ xs.foldl max (max b x) ∈ x :: xs
      rcases max_choice b x with h1 | h1
      · exact Or.inl (h.trans h1)
      · exact Or.inr (by rw [h, h1]; exact List.mem_cons_self x xs)
    · exact Or.inr (List.mem_cons_of_mem x h)

theorem tsMax?_eq_none : ∀ {l : List Int}, tsMax? l = none ↔ l = [] := by
  intro l; cases l <;> simp [tsMax?]

theorem tsMax?_mem {l : List Int} {m : Int} (h : tsMax? l = some m) : m ∈ l := by
  cases l with
  | nil => simp [tsMax?] at h
  | cons t ts =>
    simp only [tsMax?, Option.some.injEq] at h
    subst h
    rcases foldl_max_mem ts t with h1 | h1
    · rw [h1]; exact List.mem_cons_self t ts
    · exact List.mem_cons_of_mem t h1

theorem tsMax?_ub {l : List Int} {m : Int} (h : tsMax? l = some m) :
    ∀ t ∈ l, t ≤ m := by
  cases l with
  | nil => simp [tsMax?] at h
  | cons x xs =>
    simp only [tsMax?, Option.some.injEq] at h
    subst h
    intro t ht
    rcases List.mem_cons.mp ht with rfl | h1
    · exact le_foldl_max xs t
    · exact mem_le_foldl_max h1 x

theorem tsMax?_isSome {l : List Int} (h : l ≠ []) : ∃ m, tsMax? l = some m := by
  cases l with
  | nil => exact absurd rfl h
  | cons x xs => exact ⟨xs.foldl max x, rfl⟩

theorem argminFirst_eq_none {f : String → ℚ} :
    ∀ {l : List String}, argminFirst f l = none ↔ l = [] := by
  intro l
  cases l with
  | nil => simp [argminFirst]
  | cons m ms =>
    simp only [argminFirst]
    cases argminFirst f ms with
    | none => simp
    | some b =>
      by_cases hlt : f b < f m
      · simp [hlt]
      · simp [hlt]

theorem argminFirst_isSome {f : String → ℚ} {l : List String} (h : l ≠ []) :
    ∃ b, argminFirst f l = some b := by
  cases hl : argminFirst f l with
  | none => exact absurd (argminFirst_eq_none.mp hl) h
  | some b => exact ⟨b, rfl⟩

/-- `argminFirst` returns a minimiser, and every element listed before it has
a strictly larger value (the first listed minimiser wins). -/
theorem argminFirst_spec {f : String → ℚ} :
    ∀ {l : List String} {b : String}, argminFirst f l = some b →
      (∀ m ∈ l, f b ≤ f m) ∧
      ∃ l1 l2, l = l1 ++ b :: l2 ∧ ∀ m ∈ l1, f b < f m := by
  intro l
  induction l with
  | nil => intro b h; simp [argminFirst] at h
  | cons m ms ih =>
    intro b h
    cases hms : argminFirst f ms with
    | none =>
      have hnil : ms = [] := argminFirst_eq_none.mp hms
      subst hnil
      simp only [argminFirst, Option.some.injEq] at h
      subst h
      exact ⟨by simp, [], [], rfl, by simp⟩
    | some c =>
      obtain ⟨hc_le, l1, l2, hsplit, hfirst⟩ := ih hms
      simp only [argminFirst, hms] at h
      by_cases hlt : f c < f m
      · rw [if_pos hlt] at h
        injection h with h; subst h
        refine ⟨?_, m :: l1, l2, by rw [hsplit, List.cons_append], ?_⟩
        · intro x hx
          rcases List.mem_cons.mp hx with rfl | hx1
          · exact le_of_lt hlt
          · exact hc_le x hx1
        · intro x hx
          rcases List.mem_cons.mp hx with rfl | hx1
          · exact hlt
          · exact hfirst x hx1
      · rw [if_neg hlt] at h
        injection h with h; subst h
        refine ⟨?_, [], ms, rfl, by simp⟩
        intro x hx
        rcases List.mem_cons.mp hx with rfl | hx1
        · exact le_refl _
        · exact le_trans (not_lt.mp hlt) (hc_le x hx1)

theorem lookup_eq_none_iff {β : Type} {l : List (String × β)} {name : String} :
    l.lookup name = none ↔ name ∉ l.map Prod.fst := by
  induction l with
  | nil => simp [List.lookup]
  | cons p ps ih =>
    obtain ⟨k, v⟩ := p
    by_cases hk : name = k
    · subst hk; simp [List.lookup]
    · have hbeq : (name == k) = false := beq_eq_false_iff_ne.mpr hk
      simp [List.lookup, hbeq, ih, hk]

theorem zip_self_map (x : List ℚ) : x.zip x = x.map fun a => (a, a) := by
  induction x with
  | nil => rfl
  | cons a as ih => rw [List.zip_cons_cons, ih, List.map_cons]

theorem maeQ_self (x : List ℚ) : maeQ x x = 0 := by
  have h : ((x.zip x).map fun p => |p.1 - p.2|).sum = 0 := by
    apply List.sum_eq_zero
    intro a ha
    rw [zip_self_map, List.map_map] at ha
    obtain ⟨q, _, rfl⟩ := List.mem_map.mp ha
    simp
  unfold maeQ meanQ
  rw [h, zero_div]

theorem mapeQ_self (x : List ℚ) : mapeQ x x = 0 := by
  have h : ((x.zip x).map fun p => |p.1 - p.2| / max |p.1| machineEps).sum = 0 := by
    apply List.sum_eq_zero
    intro a ha
    rw [zip_self_map, List.map_map] at ha
    obtain ⟨q, _, rfl⟩ := List.mem_map.mp ha
    simp
  unfold mapeQ meanQ
  rw [h, zero_div]

theorem mseQ_self (x : List ℚ) : mseQ x x = 0 := by
  have h : ((x.zip x).map fun p => (p.1 - p.2) ^ 2).sum = 0 := by
    apply List.sum_eq_zero
    intro a ha
    rw [zip_self_map, List.map_map] at ha
    obtain ⟨q, _, rfl⟩ := List.mem_map.mp ha
    simp
  unfold mseQ meanQ
  rw [h, zero_div]

theorem init?_ok_state {t : List DecisionRow} {fr : String} {fh : Nat}
    {lv : List Nat} {f : Forecaster}
    (hf : Forecaster.init? t fr fh lv = .ok f) : f = ⟨t, fr, fh, lv, false⟩ := by
  unfold Forecaster.init? at hf
  split at hf
  · cases hf
  · split at hf
    · cases hf
    · injection hf with hf
      exact hf.symm

/-- Membership characterisation of the decision rows `Forecaster.fit`
retains, given that the history has a maximum timestamp. -/
theorem fit_cv_results_mem (f : Forecaster) (X : List HistRow) {M : Int}
    (hM : tsMax? (X.map (·.ds)) = some M) (r : DecisionRow) :
    r ∈ (f.fit X).cv_results ↔
      (r ∈ f.cv_results ∧ r.start_date ≤ M ∧
        ∀ r2 ∈ f.cv_results, r2.start_date ≤ M →
          r2.start_date ≤ r.start_date) := by
  unfold Forecaster.fit
  split
  · rename_i heq
    rw [hM] at heq
    cases heq
  · rename_i m heq
    rw [hM] at heq
    injection heq with heq
    subst heq
    split
    · rename_i hfil
      have h0 : Forecaster.fitFilter f.cv_results M = [] :=
        List.map_eq_nil_iff.mp (tsMax?_eq_none.mp hfil)
      constructor
      · intro h; cases h
      · rintro ⟨h1, h2, -⟩
        have hmem : r ∈ Forecaster.fitFilter f.cv_results M :=
          List.mem_filter.mpr ⟨h1, decide_eq_true h2⟩
        rw [h0] at hmem
        cases hmem
    · rename_i L hfil
      have hub := tsMax?_ub hfil
      have hLmem := tsMax?_mem hfil
      constructor
      · intro h
        obtain ⟨hfmem, hEq⟩ := List.mem_filter.mp h
        replace hEq : r.start_date = L := of_decide_eq_true hEq
        obtain ⟨hr_mem, hr_le⟩ := List.mem_filter.mp hfmem
        replace hr_le : r.start_date ≤ M := of_decide_eq_true hr_le
        refine ⟨hr_mem, hr_le, ?_⟩
        intro r2 h2mem h2le
        have h2 : r2.start_date ∈
            (Forecaster.fitFilter f.cv_results M).map (·.start_date) :=
          List.mem_map_of_mem _ (List.mem_filter.mpr ⟨h2mem, decide_eq_true h2le⟩)
        rw [hEq]
        exact hub _ h2
      · rintro ⟨hr_mem, hr_le, hmaxi⟩
        have hrf : r ∈ Forecaster.fitFilter f.cv_results M :=
          List.mem_filter.mpr ⟨hr_mem, decide_eq_true hr_le⟩
        obtain ⟨r0, hr0, hr0eq⟩ := List.mem_map.mp hLmem
        obtain ⟨hr0mem, hr0le⟩ := List.mem_filter.mp hr0
        have h1 : r.start_date ≤ L := hub _ (List.mem_map_of_mem _ hrf)
        have h2 : L ≤ r.start_date := by
          rw [← hr0eq]
          exact hmaxi r0 hr0mem (of_decide_eq_true hr0le)
        exact List.mem_filter.mpr ⟨hrf, decide_eq_true (le_antisymm h1 h2)⟩

/-- One `fit` only ever discards stored decision rows. -/
theorem fit_cv_results_sublist (f : Forecaster) (X : List HistRow) :
    (f.fit X).cv_results.Sublist f.cv_results := by
  unfold Forecaster.fit
  split
  · exact List.nil_sublist _
  · split
    · exact List.nil_sublist _
    · exact (List.filter_sublist _).trans (List.filter_sublist _)

theorem applyOp_sublist (f : Forecaster) (op : ForecasterOp) :
    (applyOp f op).cv_results.Sublist f.cv_results := by
  cases op with
  | fitOp X => exact fit_cv_results_sublist f X
  | predictOp X => exact List.Sublist.refl _

theorem foldl_applyOp_sublist (ops : List ForecasterOp) :
    ∀ f : Forecaster, (ops.foldl applyOp f).cv_results.Sublist f.cv_results := by
  induction ops with
  | nil => intro f; exact List.Sublist.refl _
  | cons op rest ih =>
    intro f
    exact (ih (applyOp f op)).trans (applyOp_sublist f op)

/-- Dropping the empty per-entity contributions of `predict` is the same as
filtering out the decisions whose entity has no history rows. -/
theorem flatten_map_if (gen : List HistRow → String → List ForecastRow)
    (X : List HistRow) :
    ∀ rs : List DecisionRow,
      (rs.map fun r =>
        if (Forecaster.entityRows X r.unique_id).isEmpty then []
        else gen (Forecaster.entityRows X r.unique_id) r.best_model).flatten =
      ((rs.filter fun r =>
          !(Forecaster.entityRows X r.unique_id).isEmpty).map fun r =>
        gen (Forecaster.entityRows X r.unique_id) r.best_model).flatten := by
  intro rs
  induction rs with
  | nil => rfl
  | cons r rest ih =>
    rw [List.map_cons, List.flatten_cons, List.filter_cons]
    cases hemp : (Forecaster.entityRows X r.unique_id).isEmpty
    · simp only [hemp, Bool.not_false, if_true, if_false, Bool.false_eq_true,
        List.map_cons, List.flatten_cons]
      rw [ih]
    · simp only [hemp, Bool.not_true, if_true, if_false, Bool.false_eq_true,
        List.nil_append]
      rw [ih]

/-! ### The claims -/

/-- C5: constructing a `Forecaster` succeeds exactly when one confidence
level is configured; with zero, or with two or more, levels the constructor
fails with the unsupported-configuration error. -/
theorem forecaster_init_level_check (cv_results : List DecisionRow)
    (freq : String) (forecast_horizon : Nat) (level : List Nat) :
    Forecaster.init? cv_results freq forecast_horizon level =
      if level.length = 1 then
        .ok ⟨cv_results, freq, forecast_horizon, level, false⟩
      else .error .unsupportedConfiguration := by
  unfold Forecaster.init?
  rcases level with _ | ⟨a, _ | ⟨b, rest⟩⟩ <;> simp

/-- C6: a registry lookup fails with the unknown-model error exactly for
identifiers outside the fixed enumeration, and succeeds with a model for
every registered identifier. -/
theorem model_bank_get_spec (name : String) :
    (name ∉ ModelBank.models.map Prod.fst →
      ModelBank.get name = .error .unknownModel) ∧
    (name ∈ ModelBank.models.map Prod.fst →
      ∃ m, ModelBank.get name = .ok m) := by
  constructor
  · intro hmem
    unfold ModelBank.get
    rw [lookup_eq_none_iff.mpr hmem]
  · intro hmem
    unfold ModelBank.get
    cases hl : ModelBank.models.lookup name with
    | none => exact absurd hmem (lookup_eq_none_iff.mp hl)
    | some m => exact ⟨m, rfl⟩

/-- Witness for the C6 theorem: an unregistered and a registered name. -/
theorem model_bank_get_spec_witness :
    ("Prophet" ∉ ModelBank.models.map Prod.fst ∧
      ModelBank.get "Prophet" = .error .unknownModel) ∧
    ("AutoARIMA" ∈ ModelBank.models.map Prod.fst ∧
      ∃ m, ModelBank.get "AutoARIMA" = .ok m) :=
  ⟨⟨by decide, (model_bank_get_spec "Prophet").1 (by decide)⟩,
   ⟨by decide, (model_bank_get_spec "AutoARIMA").2 (by decide)⟩⟩

/-- C7: two registry lookups for the same identifier return references to
distinct objects whose states coincide (so any deterministic fit/predict
run on the same data agrees on both), and writing through one reference
never changes what the other reference or the registry's stored prototype
dereference to. -/
theorem model_bank_getRef_independent (h : Heap) (name : String)
    (h1 : Heap) (a1 : Nat) (h2 : Heap) (a2 : Nat)
    (hg1 : ModelBank.getRef h name = .ok (h1, a1))
    (hg2 : ModelBank.getRef h1 name = .ok (h2, a2)) :
    a1 ≠ a2 ∧
    h2.read a1 = h2.read a2 ∧ (h2.read a1).isSome ∧
    (∀ fitPredict : ModelState → List ℚ → List ℚ, ∀ d : List ℚ,
      (h2.read a1).map (fun s => fitPredict s d) =
        (h2.read a2).map (fun s => fitPredict s d)) ∧
    (∀ v : ModelState,
      (h2.write a1 v).read a2 = h2.read a2 ∧
      (h2.write a2 v).read a1 = h2.read a1) ∧
    (∀ pa, protoAddr name = some pa → ∀ v : ModelState,
      (h2.write a1 v).read pa = h2.read pa ∧
      (h2.write a2 v).read pa = h2.read pa) := by
  unfold ModelBank.getRef at hg1 hg2
  cases hpa : protoAddr name with
  | none => rw [hpa] at hg1; cases hg1
  | some pa =>
    rw [hpa] at hg1 hg2
    replace hg1 : (match h.read pa with
      | none => (Except.error ModelError.unknownModel :
          Except ModelError (Heap × Nat))
      | some s => Except.ok (h.alloc s)) = Except.ok (h1, a1) := hg1
    replace hg2 : (match h1.read pa with
      | none => (Except.error ModelError.unknownModel :
          Except ModelError (Heap × Nat))
      | some s => Except.ok (h1.alloc s)) = Except.ok (h2, a2) := hg2
    cases hr : h.read pa with
    | none => rw [hr] at hg1; cases hg1
    | some s =>
      rw [hr] at hg1
      have hpa_lt : pa < h.cells.length := by
        by_contra hlt
        push_neg at hlt
        rw [Heap.read, List.getElem?_eq_none hlt] at hr
        cases hr
      replace hg1 : Except.ok (h.alloc s) = Except.ok (h1, a1) := hg1
      rw [Heap.alloc, Except.ok.injEq, Prod.mk.injEq] at hg1
      obtain ⟨hh1, ha1⟩ := hg1
      subst hh1
      subst ha1
      have hread1 : Heap.read ⟨h.cells ++ [s]⟩ pa = some s := by
        rw [Heap.read, List.getElem?_append, if_pos hpa_lt]
        exact hr
      rw [hread1] at hg2
      replace hg2 :
          Except.ok (Heap.alloc ⟨h.cells ++ [s]⟩ s) = Except.ok (h2, a2) := hg2
      rw [Heap.alloc, Except.ok.injEq, Prod.mk.injEq] at hg2
      obtain ⟨hh2, ha2⟩ := hg2
      subst hh2
      subst ha2
      have hne : h.cells.length ≠ (Heap.mk (h.cells ++ [s])).cells.length := by
        simp
      have hr1 : Heap.read ⟨(h.cells ++ [s]) ++ [s]⟩ h.cells.length = some s := by
        rw [Heap.read, List.getElem?_append, if_pos (by simp)]
        exact List.getElem?_concat_length _ _
      have hr2 : Heap.read ⟨(h.cells ++ [s]) ++ [s]⟩
          (Heap.mk (h.cells ++ [s])).cells.length = some s :=
        List.getElem?_concat_length _ _
      have hpa_ne1 : pa ≠ h.cells.length := by omega
      have hpa_ne2 : pa ≠ (Heap.mk (h.cells ++ [s])).cells.length := by
        simp only [List.length_append, List.length_cons, List.length_nil]
        omega
      refine ⟨hne, hr1.trans hr2.symm, by rw [hr1]; rfl, ?_, ?_, ?_⟩
      · intro fitPredict d
        rw [hr1, hr2]
      · intro v
        constructor
        · rw [Heap.write, Heap.read, Heap.read, List.getElem?_set_ne hne]
        · rw [Heap.write, Heap.read, Heap.read,
            List.getElem?_set_ne (Ne.symm hne)]
      · intro pa2 hpa2 v
        injection hpa2 with hpa2
        subst hpa2
        constructor
        · rw [Heap.write, Heap.read, Heap.read,
            List.getElem?_set_ne (Ne.symm hpa_ne1)]
        · rw [Heap.write, Heap.read, Heap.read,
            List.getElem?_set_ne (Ne.symm hpa_ne2)]

/-- Witness for the C7 theorem: two lookups of the AutoARIMA entry starting
from the registry's initial heap. -/
theorem model_bank_getRef_independent_witness :
    ModelBank.getRef initHeap "AutoARIMA" =
      .ok (⟨initHeap.cells ++ [⟨⟨"AutoARIMA", some 365⟩, none⟩]⟩, 3) ∧
    ModelBank.getRef ⟨initHeap.cells ++ [⟨⟨"AutoARIMA", some 365⟩, none⟩]⟩
        "AutoARIMA" =
      .ok (⟨(initHeap.cells ++ [⟨⟨"AutoARIMA", some 365⟩, none⟩]) ++
        [⟨⟨"AutoARIMA", some 365⟩, none⟩]⟩, 4) ∧
    (3 : Nat) ≠ 4 :=
  ⟨rfl, rfl,
    (model_bank_getRef_independent initHeap "AutoARIMA"
      (Heap.mk (initHeap.cells ++
        [ModelState.mk (ModelProto.mk "AutoARIMA" (some 365)) none])) 3
      (Heap.mk ((initHeap.cells ++
        [ModelState.mk (ModelProto.mk "AutoARIMA" (some 365)) none]) ++
        [ModelState.mk (ModelProto.mk "AutoARIMA" (some 365)) none])) 4
      rfl rfl).1⟩

/-- C8: every metric of the metric registry evaluates to zero when the
predicted sequence is the (non-empty) actual sequence itself. -/
theorem metric_bank_zero_on_identical :
    ∀ p ∈ METRIC_BANK, ∀ x : List ℚ, x ≠ [] → p.2 x x = 0 := by
  intro p hp x _
  simp only [METRIC_BANK, List.mem_cons, List.not_mem_nil, or_false] at hp
  rcases hp with rfl | rfl | rfl
  · show mapeR x x = 0
    unfold mapeR
    rw [mapeQ_self]; exact Rat.cast_zero
  · show maeR x x = 0
    unfold maeR
    rw [maeQ_self]; exact Rat.cast_zero
  · show rmseR x x = 0
    unfold rmseR
    rw [mseQ_self, Rat.cast_zero, Real.sqrt_zero]

/-- Witness for the C8 theorem: the MAE entry of the bank on x = [1, 2]. -/
theorem metric_bank_zero_on_identical_witness :
    ("MAE", maeR) ∈ METRIC_BANK ∧ ([1, 2] : List ℚ) ≠ [] ∧
      maeR [1, 2] [1, 2] = 0 :=
  ⟨by simp [METRIC_BANK], by simp,
    metric_bank_zero_on_identical ("MAE", maeR) (by simp [METRIC_BANK])
      [1, 2] (by simp)⟩

/-- C4: calling transform before fit fails with the not-fitted error,
reading the diagnostic error table before transform fails with the
not-transformed error, and calling predict before fit fails with the
not-fitted error — each a precondition violation returning no result. -/
theorem state_machine_preconditions
    (models : List String) (freq : String)
    (forecast_horizon season_length cv_folds : Nat) (metric : String)
    (engine : List HistRow → List CvRow) (metricFn : List ℚ → List ℚ → ℚ)
    (X : List HistRow) (table : List DecisionRow) (ffreq : String) (fh : Nat)
    (level : List Nat) (g : List HistRow → String → List ForecastRow)
    (Xf : List HistRow) (f : Forecaster)
    (hf : Forecaster.init? table ffreq fh level = .ok f) :
    CrossValidator.transform engine metricFn
        (CrossValidator.init models freq forecast_horizon season_length
          cv_folds metric) X = .error .notFitted ∧
    (CrossValidator.init models freq forecast_horizon season_length
        cv_folds metric).errorDf = .error .notTransformed ∧
    Forecaster.predict g f Xf = .error .notFitted := by
  refine ⟨rfl, rfl, ?_⟩
  rw [init?_ok_state hf]
  rfl

/-- Witness for the C4 theorem at concrete configurations. -/
theorem state_machine_preconditions_witness :
    Forecaster.init? [] "D" 7 [68] = .ok ⟨[], "D", 7, [68], false⟩ ∧
    CrossValidator.transform (fun _ => []) (fun _ _ => 0)
        (CrossValidator.init ["AutoARIMA"] "D" 7 365 5 "MAE") [] =
      .error .notFitted ∧
    (CrossValidator.init ["AutoARIMA"] "D" 7 365 5 "MAE").errorDf =
      .error .notTransformed ∧
    Forecaster.predict (fun _ _ => []) ⟨[], "D", 7, [68], false⟩ [] =
      .error .notFitted :=
  ⟨rfl, state_machine_preconditions ["AutoARIMA"] "D" 7 365 5 "MAE"
    (fun _ => []) (fun _ _ => 0) [] [] "D" 7 [68] (fun _ _ => []) []
    ⟨[], "D", 7, [68], false⟩ rfl⟩

/-- C2: after fitting on a non-empty history, every retained decision row
has start_date at most the history's maximum timestamp, and the retained
rows are exactly the stored rows passing that filter whose start_date is
the latest among the passing rows (ties all retained). -/
theorem forecaster_fit_latest_decision (f : Forecaster) (X : List HistRow)
    (hX : X ≠ []) :
    ∃ M, tsMax? (X.map (·.ds)) = some M ∧ M ∈ X.map (·.ds) ∧
      (∀ t ∈ X.map (·.ds), t ≤ M) ∧
      (∀ r ∈ (f.fit X).cv_results, r.start_date ≤ M) ∧
      (∀ r, r ∈ (f.fit X).cv_results ↔
        (r ∈ f.cv_results ∧ r.start_date ≤ M ∧
          ∀ r2 ∈ f.cv_results, r2.start_date ≤ M →
            r2.start_date ≤ r.start_date)) := by
  have hmap : X.map (·.ds) ≠ [] := fun h => hX (List.map_eq_nil_iff.mp h)
  obtain ⟨M, hM⟩ := tsMax?_isSome hmap
  refine ⟨M, hM, tsMax?_mem hM, tsMax?_ub hM, ?_,
    fun r => fit_cv_results_mem f X hM r⟩
  intro r hr
  exact ((fit_cv_results_mem f X hM r).mp hr).2.1

/-- Witness for the C2 theorem: two decisions, a history admitting only the
earlier one. -/
theorem forecaster_fit_latest_decision_witness :
    ([⟨1, 10, (3 : ℚ)⟩] : List HistRow) ≠ [] ∧
    (∃ M, tsMax? (([⟨1, 10, (3 : ℚ)⟩] : List HistRow).map (·.ds)) = some M ∧
      M ∈ ([⟨1, 10, (3 : ℚ)⟩] : List HistRow).map (·.ds) ∧
      (∀ t ∈ ([⟨1, 10, (3 : ℚ)⟩] : List HistRow).map (·.ds), t ≤ M) ∧
      (∀ r ∈ ((⟨[⟨1, 5, "AutoARIMA"⟩, ⟨2, 20, "AutoETS"⟩], "D", 7, [68],
          false⟩ : Forecaster).fit [⟨1, 10, (3 : ℚ)⟩]).cv_results,
        r.start_date ≤ M) ∧
      (∀ r, r ∈ ((⟨[⟨1, 5, "AutoARIMA"⟩, ⟨2, 20, "AutoETS"⟩], "D", 7, [68],
          false⟩ : Forecaster).fit [⟨1, 10, (3 : ℚ)⟩]).cv_results ↔
        (r ∈ ([⟨1, 5, "AutoARIMA"⟩, ⟨2, 20, "AutoETS"⟩] : List DecisionRow) ∧
          r.start_date ≤ M ∧
          ∀ r2 ∈ ([⟨1, 5, "AutoARIMA"⟩, ⟨2, 20, "AutoETS"⟩] :
            List DecisionRow), r2.start_date ≤ M →
              r2.start_date ≤ r.start_date))) :=
  ⟨by simp,
    forecaster_fit_latest_decision
      ⟨[⟨1, 5, "AutoARIMA"⟩, ⟨2, 20, "AutoETS"⟩], "D", 7, [68], false⟩
      [⟨1, 10, (3 : ℚ)⟩] (by simp)⟩

/-- C10: the stored decision table of a constructed Forecaster stays a
sub-list of the table supplied at construction under every sequence of
fit/predict operations; a second fit filters the already-reduced table, and
a row dropped by an earlier fit is never retained by a later fit. -/
theorem forecaster_state_monotone (table : List DecisionRow) (freq : String)
    (fh : Nat) (level : List Nat) (f : Forecaster)
    (hf : Forecaster.init? table freq fh level = .ok f)
    (ops : List ForecasterOp) (X1 X2 : List HistRow) (r : DecisionRow)
    (hr : r ∉ (f.fit X1).cv_results) :
    (ops.foldl applyOp f).cv_results.Sublist table ∧
    ((f.fit X1).fit X2).cv_results.Sublist (f.fit X1).cv_results ∧
    r ∉ ((f.fit X1).fit X2).cv_results := by
  have htab : f.cv_results = table := by rw [init?_ok_state hf]
  refine ⟨?_, fit_cv_results_sublist _ X2, ?_⟩
  · rw [← htab]
    exact foldl_applyOp_sublist ops f
  · intro hmem
    exact hr ((fit_cv_results_sublist (f.fit X1) X2).subset hmem)

/-- Witness for the C10 theorem: a decision dropped by the first fit. -/
theorem forecaster_state_monotone_witness :
    Forecaster.init? [⟨1, 10, "AutoARIMA"⟩, ⟨2, 5, "AutoETS"⟩] "D" 7 [68] =
      .ok ⟨[⟨1, 10, "AutoARIMA"⟩, ⟨2, 5, "AutoETS"⟩], "D", 7, [68], false⟩ ∧
    (⟨1, 10, "AutoARIMA"⟩ : DecisionRow) ∉
      ((⟨[⟨1, 10, "AutoARIMA"⟩, ⟨2, 5, "AutoETS"⟩], "D", 7, [68], false⟩ :
        Forecaster).fit [⟨1, 7, (0 : ℚ)⟩]).cv_results ∧
    (([ForecasterOp.fitOp [⟨1, 7, (0 : ℚ)⟩]].foldl applyOp
        (⟨[⟨1, 10, "AutoARIMA"⟩, ⟨2, 5, "AutoETS"⟩], "D", 7, [68], false⟩ :
          Forecaster)).cv_results.Sublist
      [⟨1, 10, "AutoARIMA"⟩, ⟨2, 5, "AutoETS"⟩] ∧
    (((⟨[⟨1, 10, "AutoARIMA"⟩, ⟨2, 5, "AutoETS"⟩], "D", 7, [68], false⟩ :
        Forecaster).fit [⟨1, 7, (0 : ℚ)⟩]).fit [⟨1, 12, (0 : ℚ)⟩]).cv_results.Sublist
      ((⟨[⟨1, 10, "AutoARIMA"⟩, ⟨2, 5, "AutoETS"⟩], "D", 7, [68], false⟩ :
        Forecaster).fit [⟨1, 7, (0 : ℚ)⟩]).cv_results ∧
    (⟨1, 10, "AutoARIMA"⟩ : DecisionRow) ∉
      (((⟨[⟨1, 10, "AutoARIMA"⟩, ⟨2, 5, "AutoETS"⟩], "D", 7, [68], false⟩ :
        Forecaster).fit [⟨1, 7, (0 : ℚ)⟩]).fit [⟨1, 12, (0 : ℚ)⟩]).cv_results) :=
  ⟨rfl, by decide,
    forecaster_state_monotone [⟨1, 10, "AutoARIMA"⟩, ⟨2, 5, "AutoETS"⟩]
      "D" 7 [68]
      ⟨[⟨1, 10, "AutoARIMA"⟩, ⟨2, 5, "AutoETS"⟩], "D", 7, [68], false⟩ rfl
      [ForecasterOp.fitOp [⟨1, 7, (0 : ℚ)⟩]] [⟨1, 7, (0 : ℚ)⟩]
      [⟨1, 12, (0 : ℚ)⟩] ⟨1, 10, "AutoARIMA"⟩ (by decide)⟩

/-- C9 is false as stated for a fitted Forecaster with no retained
decision: `results` is then the empty Python list and `pd.concat([])`
raises a ValueError.  The state is reachable — fitting on a history whose
maximum timestamp precedes every decision_start retains nothing yet marks
the Forecaster fitted — and there predict raises instead of returning the
empty concatenation. -/
theorem forecaster_predict_empty_concat_counterexample :
    ((⟨[⟨1, 10, "AutoARIMA"⟩], "D", 7, [68], false⟩ : Forecaster).fit
        [⟨1, 5, (0 : ℚ)⟩]).is_fitted = true ∧
    ((⟨[⟨1, 10, "AutoARIMA"⟩], "D", 7, [68], false⟩ : Forecaster).fit
        [⟨1, 5, (0 : ℚ)⟩]).cv_results = [] ∧
    Forecaster.predict (fun _ _ => [])
        ((⟨[⟨1, 10, "AutoARIMA"⟩], "D", 7, [68], false⟩ : Forecaster).fit
          [⟨1, 5, (0 : ℚ)⟩]) [⟨1, 5, (0 : ℚ)⟩] =
      .error .emptyConcat :=
  ⟨rfl, rfl, rfl⟩

/-- C9 (amended): predict on a fitted Forecaster with at least one retained
decision returns, without error, the concatenation of the per-entity engine
forecasts of exactly those retained decisions whose entity occurs in the
history — a decision whose entity has no observations contributes no rows;
with no retained decision at all, predict instead fails with the ValueError
of the empty concatenation. -/
theorem forecaster_predict_skips_missing (f : Forecaster)
    (gen : List HistRow → String → List ForecastRow) (X : List HistRow)
    (hfit : f.is_fitted = true) (hne : f.cv_results ≠ []) :
    Forecaster.predict gen f X =
      .ok (((f.cv_results.filter fun r =>
          !(Forecaster.entityRows X r.unique_id).isEmpty).map fun r =>
        gen (Forecaster.entityRows X r.unique_id) r.best_model).flatten) := by
  unfold Forecaster.predict
  rw [if_pos hfit, if_neg (fun hh => hne (List.isEmpty_iff.mp hh)),
    flatten_map_if]

/-- Witness for the amended C9 theorem: one present and one absent
entity. -/
theorem forecaster_predict_skips_missing_witness :
    ((⟨[⟨1, 5, "AutoARIMA"⟩, ⟨2, 5, "AutoETS"⟩], "D", 7, [68], true⟩ :
      Forecaster).is_fitted = true) ∧
    ((⟨[⟨1, 5, "AutoARIMA"⟩, ⟨2, 5, "AutoETS"⟩], "D", 7, [68], true⟩ :
      Forecaster).cv_results ≠ []) ∧
    Forecaster.predict (fun _ _ => [⟨9, 9, 9, 9, 9⟩])
        ⟨[⟨1, 5, "AutoARIMA"⟩, ⟨2, 5, "AutoETS"⟩], "D", 7, [68], true⟩
        [⟨1, 3, (10 : ℚ)⟩] =
      .ok (((([⟨1, 5, "AutoARIMA"⟩, ⟨2, 5, "AutoETS"⟩] :
          List DecisionRow).filter fun r =>
            !(Forecaster.entityRows [⟨1, 3, (10 : ℚ)⟩] r.unique_id).isEmpty).map
        fun r => (fun _ _ => [(⟨9, 9, 9, 9, 9⟩ : ForecastRow)])
          (Forecaster.entityRows [⟨1, 3, (10 : ℚ)⟩] r.unique_id)
          r.best_model).flatten) :=
  ⟨rfl, by simp,
    forecaster_predict_skips_missing
      ⟨[⟨1, 5, "AutoARIMA"⟩, ⟨2, 5, "AutoETS"⟩], "D", 7, [68], true⟩
      (fun _ _ => [⟨9, 9, 9, 9, 9⟩]) [⟨1, 3, (10 : ℚ)⟩] rfl (by simp)⟩

/-- C3: each decision-table row is exactly (unique_id, start_date,
best_model) for one (entity, cutoff) group, with start_date the group's
cutoff advanced by exactly forecast_horizon periods of the configured
frequency unit. -/
theorem decision_start_one_horizon (metric : String)
    (metricFn : List ℚ → List ℚ → ℚ) (models : List String) (freq : String)
    (forecast_horizon : Nat) (cv : List CvRow) (u : Int)
    (hu : freqTicks freq = some u) :
    (determineBestModel metric metricFn models freq forecast_horizon cv).2 =
      (groupKeys cv).map fun k =>
        ⟨k.1, k.2 + (forecast_horizon : Int) * u,
          bestModelOf metricFn models (groupRows cv k)⟩ := by
  simp only [determineBestModel, cvDfResults, List.map_map]
  apply List.map_congr_left
  intro k _
  simp [Function.comp, addTimedelta, hu]

/-- Witness for the C3 theorem: daily frequency, horizon 7, one group. -/
theorem decision_start_one_horizon_witness :
    freqTicks "D" = some 86400 ∧
    (determineBestModel "MAE" maeQ ["AutoARIMA"] "D" 7
        [⟨1, 1, 0, 5, [("AutoARIMA", 3)]⟩]).2 =
      (groupKeys [⟨1, 1, 0, 5, [("AutoARIMA", 3)]⟩]).map fun k =>
        ⟨k.1, k.2 + (7 : Int) * 86400,
          bestModelOf maeQ ["AutoARIMA"]
            (groupRows [⟨1, 1, 0, 5, [("AutoARIMA", 3)]⟩] k)⟩ :=
  ⟨rfl, decision_start_one_horizon "MAE" maeQ ["AutoARIMA"] "D" 7
    [⟨1, 1, 0, 5, [("AutoARIMA", 3)]⟩] 86400 rfl⟩

/-- C1 is false as stated: with the candidate list [HistoricAverage,
AutoARIMA] and an exact tie in MAE over the single (entity, cutoff) group,
the emitted best_model is HistoricAverage — the first-listed candidate —
while the registry's enumeration order (AutoARIMA is registered first)
would pick AutoARIMA. -/
theorem best_model_registry_tiebreak_counterexample :
    ((determineBestModel "MAE" maeQ ["HistoricAverage", "AutoARIMA"] "D" 7
        [⟨1, 1, 0, 5, [("HistoricAverage", 5), ("AutoARIMA", 5)]⟩]).2.map
      (·.best_model)) = ["HistoricAverage"] ∧
    errOf maeQ (groupRows [⟨1, 1, 0, 5,
        [("HistoricAverage", 5), ("AutoARIMA", 5)]⟩] (1, 0))
        "HistoricAverage" =
      errOf maeQ (groupRows [⟨1, 1, 0, 5,
        [("HistoricAverage", 5), ("AutoARIMA", 5)]⟩] (1, 0)) "AutoARIMA" ∧
    bestModelRegistryTieBreak maeQ ["HistoricAverage", "AutoARIMA"]
      (groupRows [⟨1, 1, 0, 5,
        [("HistoricAverage", 5), ("AutoARIMA", 5)]⟩] (1, 0)) =
      some "AutoARIMA" ∧
    ("HistoricAverage" : String) ≠ "AutoARIMA" := by
  have h1 : errOf maeQ (groupRows [⟨1, 1, 0, 5,
      [("HistoricAverage", 5), ("AutoARIMA", 5)]⟩] (1, 0))
      "HistoricAverage" = 0 := by
    rw [show errOf maeQ (groupRows [⟨1, 1, 0, 5,
      [("HistoricAverage", 5), ("AutoARIMA", 5)]⟩] (1, 0))
      "HistoricAverage" = maeQ [(5 : ℚ)] [(5 : ℚ)] from rfl]
    exact maeQ_self [(5 : ℚ)]
  have h2 : errOf maeQ (groupRows [⟨1, 1, 0, 5,
      [("HistoricAverage", 5), ("AutoARIMA", 5)]⟩] (1, 0)) "AutoARIMA" = 0 := by
    rw [show errOf maeQ (groupRows [⟨1, 1, 0, 5,
      [("HistoricAverage", 5), ("AutoARIMA", 5)]⟩] (1, 0))
      "AutoARIMA" = maeQ [(5 : ℚ)] [(5 : ℚ)] from rfl]
    exact maeQ_self [(5 : ℚ)]
  have hdet : (determineBestModel "MAE" maeQ ["HistoricAverage", "AutoARIMA"]
      "D" 7 [⟨1, 1, 0, 5, [("HistoricAverage", 5), ("AutoARIMA", 5)]⟩]).2 =
      [⟨1, 604800, bestModelOf maeQ ["HistoricAverage", "AutoARIMA"]
        (groupRows [⟨1, 1, 0, 5,
          [("HistoricAverage", 5), ("AutoARIMA", 5)]⟩] (1, 0))⟩] := rfl
  have hbest : bestModelOf maeQ ["HistoricAverage", "AutoARIMA"]
      (groupRows [⟨1, 1, 0, 5,
        [("HistoricAverage", 5), ("AutoARIMA", 5)]⟩] (1, 0)) =
      "HistoricAverage" := by
    unfold bestModelOf
    simp [argminFirst, h1, h2]
  refine ⟨?_, h1.trans h2.symm, ?_, by decide⟩
  · rw [hdet, hbest]
    rfl
  · unfold bestModelRegistryTieBreak
    rw [show ModelBank.models.map Prod.fst =
      ["AutoARIMA", "AutoETS", "HistoricAverage"] from rfl]
    simp [List.filter_cons, List.forall_mem_cons, h1, h2]

/-- C1 (amended): the emitted decision table has exactly one row per
(entity, cutoff) group, in group order, each carrying its own group's
best_model; and for every group that best_model attains the minimal metric
value among the candidate models, a tie being broken by the order of the
candidate list supplied at construction — every candidate listed before the
winner has strictly larger error, so the first-listed minimiser wins. -/
theorem best_model_minimal_first_listed (metric : String)
    (metricFn : List ℚ → List ℚ → ℚ) (models : List String) (freq : String)
    (forecast_horizon : Nat) (cv : List CvRow) (hm : models ≠ []) :
    ((determineBestModel metric metricFn models freq forecast_horizon cv).2 =
      (groupKeys cv).map fun k =>
        ⟨k.1, addTimedelta k.2 forecast_horizon freq,
          bestModelOf metricFn models (groupRows cv k)⟩) ∧
    ∀ k ∈ groupKeys cv,
      (∀ m ∈ models,
        errOf metricFn (groupRows cv k)
            (bestModelOf metricFn models (groupRows cv k)) ≤
          errOf metricFn (groupRows cv k) m) ∧
      ∃ l1 l2,
        models = l1 ++ bestModelOf metricFn models (groupRows cv k) :: l2 ∧
        ∀ m ∈ l1,
          errOf metricFn (groupRows cv k)
              (bestModelOf metricFn models (groupRows cv k)) <
            errOf metricFn (groupRows cv k) m := by
  constructor
  · simp only [determineBestModel, cvDfResults, List.map_map]
    apply List.map_congr_left
    intro k _
    rfl
  · intro k _
    obtain ⟨b, hb⟩ :=
      argminFirst_isSome (f := errOf metricFn (groupRows cv k)) hm
    obtain ⟨hble, l1, l2, hsplit, hfirst⟩ := argminFirst_spec hb
    have hbm : bestModelOf metricFn models (groupRows cv k) = b := by
      unfold bestModelOf
      rw [hb]
      rfl
    rw [hbm]
    exact ⟨hble, l1, l2, hsplit, hfirst⟩

/-- Witness for the amended C1 theorem: a single candidate, one group. -/
theorem best_model_minimal_first_listed_witness :
    (["AutoARIMA"] : List String) ≠ [] ∧
    ((determineBestModel "MAE" maeQ ["AutoARIMA"] "D" 7
        [⟨1, 1, 0, 5, [("AutoARIMA", 3)]⟩]).2 =
      (groupKeys [⟨1, 1, 0, 5, [("AutoARIMA", 3)]⟩]).map fun k =>
        ⟨k.1, addTimedelta k.2 7 "D",
          bestModelOf maeQ ["AutoARIMA"]
            (groupRows [⟨1, 1, 0, 5, [("AutoARIMA", 3)]⟩] k)⟩) ∧
    ∀ k ∈ groupKeys [⟨1, 1, 0, 5, [("AutoARIMA", 3)]⟩],
      (∀ m ∈ (["AutoARIMA"] : List String),
        errOf maeQ (groupRows [⟨1, 1, 0, 5, [("AutoARIMA", 3)]⟩] k)
            (bestModelOf maeQ ["AutoARIMA"]
              (groupRows [⟨1, 1, 0, 5, [("AutoARIMA", 3)]⟩] k)) ≤
          errOf maeQ (groupRows [⟨1, 1, 0, 5, [("AutoARIMA", 3)]⟩] k) m) ∧
      ∃ l1 l2, (["AutoARIMA"] : List String) =
          l1 ++ bestModelOf maeQ ["AutoARIMA"]
            (groupRows [⟨1, 1, 0, 5, [("AutoARIMA", 3)]⟩] k) :: l2 ∧
        ∀ m ∈ l1,
          errOf maeQ (groupRows [⟨1, 1, 0, 5, [("AutoARIMA", 3)]⟩] k)
              (bestModelOf maeQ ["AutoARIMA"]
                (groupRows [⟨1, 1, 0, 5, [("AutoARIMA", 3)]⟩] k)) <
            errOf maeQ (groupRows [⟨1, 1, 0, 5, [("AutoARIMA", 3)]⟩] k) m := by
  have h := best_model_minimal_first_listed "MAE" maeQ ["AutoARIMA"] "D" 7
    [⟨1, 1, 0, 5, [("AutoARIMA", 3)]⟩] (by simp)
  exact ⟨by simp, h.1, h.2⟩

end App
